import Mathlib

/-!
Verification development for the etymology-db markup-to-relation extraction
engine (source files: elements.py, templates.py, main.py).

The Python source is shallowly embedded: the wikitext node tree produced by
the collaborator parser (mwparserfromhell) is modelled by the mutual
inductive types Node and Param below; each construct-interpreter function of
templates.py is a Lean definition of the same name; `IndexError` raised by a
Python list subscript out of range is modelled by the Except monad; the
Chain Normalizer passes of main.py operate on plain lists of nodes.
Python strings are Lean Strings, Python ints are Lean Ints where a value can
go negative (definition indices, positions) and Nats for list indices.
-/

namespace EtymDb

/-- Python exception raised inside an interpreter; the only failure mode the
engine's own code can produce is a list subscript out of range. -/
inductive PyErr where
  | indexError : PyErr
deriving DecidableEq, Repr

/-- Relation kinds, from the RelType enum of templates.py.  The string
values are copied verbatim from the source; note the source assigns
SuffixRoot the same string value as PrefixRoot (templates.py line 25). -/
inductive RelType where
  | Inherited | Derived | Borrowed | LearnedBorrowing | SemiLearnedBorrowing
  | OrthographicBorrowing | UnadaptedBorrowing | Root | Affix | Prefix_
  | PrefixRoot | Suffix_ | SuffixRoot | Confix | Compound | Blend
  | Abbreviation | Initialism | Clipping | BackForm | Doublet | Onomatopoeia
  | Calque | SemanticLoan | NamedAfter | PhonoSemanticMatching | Mention
  | Cognate | GroupAffix | GroupMention | GroupDerived
deriving DecidableEq, Repr

/-- The `.value` of each RelType member, verbatim from templates.py. -/
def RelType.val : RelType → String
  | .Inherited => "inherited_from"
  | .Derived => "derived_from"
  | .Borrowed => "borrowed_from"
  | .LearnedBorrowing => "learned_borrowing_from"
  | .SemiLearnedBorrowing => "semi_learned_borrowing_from"
  | .OrthographicBorrowing => "orthographic_borrowing_from"
  | .UnadaptedBorrowing => "unadapted_borrowing_from"
  | .Root => "has_root"
  | .Affix => "has_affix"
  | .Prefix_ => "has_prefix"
  | .PrefixRoot => "has_prefix_with_root"
  | .Suffix_ => "has_suffix"
  | .SuffixRoot => "has_prefix_with_root"
  | .Confix => "has_confix"
  | .Compound => "compound_of"
  | .Blend => "blend_of"
  | .Abbreviation => "abbreviation_of"
  | .Initialism => "initialism_of"
  | .Clipping => "clipping_of"
  | .BackForm => "back-formation_from"
  | .Doublet => "doublet_with"
  | .Onomatopoeia => "is_onomatopoeic"
  | .Calque => "calque_of"
  | .SemanticLoan => "semantic_loan_of"
  | .NamedAfter => "named_after"
  | .PhonoSemanticMatching => "phono-semantic_matching_of"
  | .Mention => "etymologically_related_to"
  | .Cognate => "cognate_of"
  | .GroupAffix => "group_affix_root"
  | .GroupMention => "group_related_root"
  | .GroupDerived => "group_derived_root"

/-- The frozen Etymology dataclass of elements.py.  Optional fields that
default to Python None are Options; definition_num and position are Ints
because the source computes `int(nums[0]) - 1`, which can be negative.
The source also declares a static method generate_root_tag producing a
random 128-bit identifier; no code in the repository ever calls it, so no
definition here models its output being attached to a record. -/
structure Etymology where
  lang : String
  term : String
  reltype : String
  related_lang : Option String
  related_term : Option String
  definition_num : Int
  position : Int := 0
  group_tag : Option String := none
  parent_tag : Option String := none
  parent_position : Option Int := none
deriving DecidableEq, Repr

/-- Etymology.with_parent from elements.py: copies every content field of
the child and sets parent_tag from the parent's group_tag and
parent_position from the position argument. -/
def Etymology.with_parent (child : Etymology) (parent : Etymology)
    (position : Int := 0) : Etymology :=
  { lang := child.lang, term := child.term, reltype := child.reltype,
    related_lang := child.related_lang, related_term := child.related_term,
    definition_num := child.definition_num, position := child.position,
    group_tag := child.group_tag,
    parent_tag := parent.group_tag, parent_position := some position }

/-- Etymology.is_valid from elements.py:
related_term not in ("", "-").  A related_term of None passes the test. -/
def Etymology.is_valid (e : Etymology) : Bool :=
  !(e.related_term == some "" || e.related_term == some "-")

/-- Python truthiness of an Optional[str]: None and "" are falsy. -/
def pyTruthy : Option String → Bool
  | none => false
  | some s => !(s == "")

/-! ## The wikitext node tree

Models the mwparserfromhell node types the engine distinguishes: Template
(a name plus parameters, each parameter positional or keyed and holding a
sub-tree of nodes), Text, Wikilink (title plus optional plain display
text), and a heading node standing for every other node kind (headings,
comments, tags), which the cleaner strips.  Parameter names are the strings
mwparserfromhell assigns ("1", "2", ... for positional parameters). -/

mutual
inductive Node where
  | template (name : String) (params : List Param) : Node
  | text (s : String) : Node
  | wikilink (title : String) (disp : Option String) : Node
  | heading (title : String) : Node

inductive Param where
  | mk (showkey : Bool) (pname : String) (value : List Node) : Param
end

def Param.showkey : Param → Bool
  | .mk sk _ _ => sk

def Param.pname : Param → String
  | .mk _ n _ => n

def Param.value : Param → List Node
  | .mk _ _ v => v

-- Wikitext rendering, modelling str() on mwparserfromhell nodes.
mutual
def renderNode : Node → String
  | .template name ps => "\x7b\x7b" ++ name ++ renderParams ps ++ "\x7d\x7d"
  | .text s => s
  | .wikilink t d => "[[" ++ t ++ (match d with | some x => "|" ++ x | none => "") ++ "]]"
  | .heading t => "==" ++ t ++ "=="

def renderParams : List Param → String
  | [] => ""
  | p :: rest => "|" ++ renderParam p ++ renderParams rest

def renderParam : Param → String
  | .mk sk n v => (if sk then n ++ "=" else "") ++ renderNodes v

def renderNodes : List Node → String
  | [] => ""
  | n :: rest => renderNode n ++ renderNodes rest
end

/-- str(param) on a positional parameter: the rendering of its value. -/
def strParam (p : Param) : String := renderParam p

/-- Python str.strip(): removes leading and trailing whitespace.  Defined
by structural recursion over the character list (the core String.trim is
extensionally the same but built on non-structural substring loops). -/
def pyStrip (s : String) : String :=
  String.mk (((s.data.dropWhile Char.isWhitespace).reverse.dropWhile
    Char.isWhitespace).reverse)

/-- Python str.lower(), for the ASCII letters the connector predicates
compare against. -/
def pyLower (s : String) : String :=
  String.mk (s.data.map Char.toLower)

/-- The positional parameters of a template:
[param for param in template.params if not param.showkey]. -/
def posParams (ps : List Param) : List Param :=
  ps.filter (fun q => !q.showkey)

/-- Python list subscript p[j]: IndexError when out of range. -/
def pyIndex {α : Type} (l : List α) (j : Nat) : Except PyErr α :=
  match l.get? j with
  | some a => .ok a
  | none => .error .indexError

/-- Python list subscript p[-1]: IndexError on an empty list. -/
def pyLast {α : Type} (l : List α) : Except PyErr α :=
  match l.getLast? with
  | some a => .ok a
  | none => .error .indexError

/-- An interpreter's return value: Python functions in templates.py return
either a single Etymology, a list of them, or raise. -/
inductive TRes where
  | one (e : Etymology) : TRes
  | many (es : List Etymology) : TRes
deriving DecidableEq, Repr

/-- The wrap parse_template applies to an interpreter's return value:
[result] if isinstance(result, Etymology) else result. -/
def TRes.toList : TRes → List Etymology
  | .one e => [e]
  | .many es => es

/-! ## Construct interpreters (templates.py)

Each function keeps its source name (prefix and suffix are Lean keywords
and get an Fn marker).  All have the uniform Python signature
(term, lang, template, i); the template argument is its parameter list. -/

/-- Shared body of the seven (lang, source lang, source word) interpreters:
guard len(p) < 3, then one record with related_lang=str(p[1]),
related_term=str(p[2]). -/
def threeArg (rt : RelType) (term lang : String) (t : List Param) (i : Int) :
    Except PyErr TRes := do
  let p := posParams t
  if p.length < 3 then return (.many [])
  else do
    let a1 ← pyIndex p 1
    let a2 ← pyIndex p 2
    return (.one { term := term, lang := lang, reltype := rt.val,
                   related_lang := some (strParam a1),
                   related_term := some (strParam a2), definition_num := i })

/-- Shared body of the (source lang, source word) interpreters:
guard len(p) < 2, then one record with related_lang=str(p[0]),
related_term=str(p[1]). -/
def twoArg (rt : RelType) (term lang : String) (t : List Param) (i : Int) :
    Except PyErr TRes := do
  let p := posParams t
  if p.length < 2 then return (.many [])
  else do
    let a0 ← pyIndex p 0
    let a1 ← pyIndex p 1
    return (.one { term := term, lang := lang, reltype := rt.val,
                   related_lang := some (strParam a0),
                   related_term := some (strParam a1), definition_num := i })

def derived (term lang : String) (t : List Param) (i : Int) : Except PyErr TRes :=
  threeArg .Derived term lang t i

def borrowed (term lang : String) (t : List Param) (i : Int) : Except PyErr TRes :=
  threeArg .Borrowed term lang t i

def learned_borrowing (term lang : String) (t : List Param) (i : Int) : Except PyErr TRes :=
  threeArg .LearnedBorrowing term lang t i

def semi_learned_borrowing (term lang : String) (t : List Param) (i : Int) : Except PyErr TRes :=
  threeArg .SemiLearnedBorrowing term lang t i

def unadapted_borrowing (term lang : String) (t : List Param) (i : Int) : Except PyErr TRes :=
  threeArg .UnadaptedBorrowing term lang t i

def orthographic_borrowing (term lang : String) (t : List Param) (i : Int) : Except PyErr TRes :=
  threeArg .OrthographicBorrowing term lang t i

def inherited (term lang : String) (t : List Param) (i : Int) : Except PyErr TRes :=
  threeArg .Inherited term lang t i

def calque (term lang : String) (t : List Param) (i : Int) : Except PyErr TRes :=
  threeArg .Calque term lang t i

def semantic_loan (term lang : String) (t : List Param) (i : Int) : Except PyErr TRes :=
  threeArg .SemanticLoan term lang t i

def phono_semantic_matching (term lang : String) (t : List Param) (i : Int) : Except PyErr TRes :=
  threeArg .PhonoSemanticMatching term lang t i

def clipping (term lang : String) (t : List Param) (i : Int) : Except PyErr TRes :=
  twoArg .Clipping term lang t i

def abbreviation (term lang : String) (t : List Param) (i : Int) : Except PyErr TRes :=
  twoArg .Abbreviation term lang t i

def initialism (term lang : String) (t : List Param) (i : Int) : Except PyErr TRes :=
  twoArg .Initialism term lang t i

def back_form (term lang : String) (t : List Param) (i : Int) : Except PyErr TRes :=
  twoArg .BackForm term lang t i

def named_after (term lang : String) (t : List Param) (i : Int) : Except PyErr TRes :=
  twoArg .NamedAfter term lang t i

def mention (term lang : String) (t : List Param) (i : Int) : Except PyErr TRes :=
  twoArg .Mention term lang t i

def cognate (term lang : String) (t : List Param) (i : Int) : Except PyErr TRes :=
  twoArg .Cognate term lang t i

/-- non_cognate deliberately emits a Mention-kind record (source comment). -/
def non_cognate (term lang : String) (t : List Param) (i : Int) : Except PyErr TRes :=
  twoArg .Mention term lang t i

/-- root from templates.py: related_lang = str(p[1]), one record per
element of p[2:], position = its index in that slice.  The source reads
p[1] inside the loop body, which only runs when p has at least three
elements, so the subscript cannot raise; when p.get? 1 is none the slice
p[2:] is empty and the loop produces no records. -/
def root (term lang : String) (t : List Param) (i : Int) : Except PyErr TRes :=
  let p := posParams t
  match p.get? 1 with
  | none => .ok (.many [])
  | some l1 => .ok (.many ((p.drop 2).enum.map (fun jr =>
      { term := term, lang := lang, reltype := RelType.Root.val,
        related_lang := some (strParam l1), related_term := some (strParam jr.2),
        position := (jr.1 : Int), definition_num := i })))

/-- pie_root: hardcoded related_lang "ine-pro", one record per element of
p[1:], position = its index in that slice. -/
def pie_root (term lang : String) (t : List Param) (i : Int) : Except PyErr TRes :=
  let p := posParams t
  .ok (.many ((p.drop 1).enum.map (fun jr =>
      { term := term, lang := lang, reltype := RelType.Root.val,
        related_lang := some "ine-pro", related_term := some (strParam jr.2),
        position := (jr.1 : Int), definition_num := i })))

/-- Shared body of affix / compound / blend / doublet: related_lang =
str(p[0]), one record per element of p[1:].  p[0] is read inside the loop,
which only runs when p is nonempty. -/
def morphList (rt : RelType) (term lang : String) (t : List Param) (i : Int) :
    Except PyErr TRes :=
  let p := posParams t
  match p.get? 0 with
  | none => .ok (.many [])
  | some l0 => .ok (.many ((p.drop 1).enum.map (fun jr =>
      { term := term, lang := lang, reltype := rt.val,
        related_lang := some (strParam l0), related_term := some (strParam jr.2),
        position := (jr.1 : Int), definition_num := i })))

def affix (term lang : String) (t : List Param) (i : Int) : Except PyErr TRes :=
  morphList .Affix term lang t i

def compound (term lang : String) (t : List Param) (i : Int) : Except PyErr TRes :=
  morphList .Compound term lang t i

def blend (term lang : String) (t : List Param) (i : Int) : Except PyErr TRes :=
  morphList .Blend term lang t i

def doublet (term lang : String) (t : List Param) (i : Int) : Except PyErr TRes :=
  morphList .Doublet term lang t i

/-- prefix from templates.py (Fn marker: Lean keyword).  No length guard:
p[0] and p[1] are subscripted unconditionally and raise IndexError when
fewer than two positional arguments are present.  A third argument that
renders to a nonempty string adds a PrefixRoot record. -/
def prefixFn (term lang : String) (t : List Param) (i : Int) : Except PyErr TRes := do
  let p := posParams t
  let a0 ← pyIndex p 0
  let a1 ← pyIndex p 1
  let pre : Etymology :=
    { term := term, lang := lang, reltype := RelType.Prefix_.val,
      related_lang := some (strParam a0), related_term := some (strParam a1),
      definition_num := i }
  match p.get? 2 with
  | some a2 =>
    if strParam a2 ≠ "" then
      return (.many [pre,
        { term := term, lang := lang, reltype := RelType.PrefixRoot.val,
          related_lang := some (strParam a0), related_term := some (strParam a2),
          definition_num := i }])
    else return (.one pre)
  | none => return (.one pre)

/-- confix from templates.py: first affix argument at position 0, interior
arguments p[2:-1] at positions j+1, the last argument p[-1] at position
len(p)-2; every record has the Confix reltype.  Subscripts p[0], p[1] are
unguarded and raise when fewer than two positional arguments exist. -/
def confix (term lang : String) (t : List Param) (i : Int) : Except PyErr TRes := do
  let p := posParams t
  let a0 ← pyIndex p 0
  let a1 ← pyIndex p 1
  let first : Etymology :=
    { term := term, lang := lang, reltype := RelType.Confix.val,
      related_lang := some (strParam a0), related_term := some (strParam a1),
      position := 0, definition_num := i }
  let mids := ((p.drop 2).dropLast).enum.map (fun jr =>
    { term := term, lang := lang, reltype := RelType.Confix.val,
      related_lang := some (strParam a0), related_term := some (strParam jr.2),
      position := (jr.1 : Int) + 1, definition_num := i })
  let alast ← pyLast p
  return (.many (first :: mids ++
    [{ term := term, lang := lang, reltype := RelType.Confix.val,
       related_lang := some (strParam a0), related_term := some (strParam alast),
       position := (p.length : Int) - 2, definition_num := i }]))

/-- Models len(str(p)) where p is the Python list of Parameter objects in
the guard of the source suffix interpreter: str of a list renders as
"[" ++ ", ".join(repr(param)) ++ "]", and repr(param) = repr(str(param))
wraps the parameter's wikitext in two quote characters (escaping inside
repr can only lengthen the result, which cannot change a comparison
against 3).  The empty list renders as "[]", length 2. -/
def pyStrListLen (ps : List Param) : Nat :=
  match ps with
  | [] => 2
  | _ => 2 + ((ps.map (fun q => 2 + (strParam q).length)).sum + 2 * (ps.length - 1))

/-- suffix from templates.py (Fn marker: Lean keyword).  The source guard
is len(str(p)) < 3 - the length of the string representation of the
parameter list, not of the list - so it only fires for an empty p
(str "[]"); with one or two positional arguments the subscript p[2]
raises IndexError. -/
def suffixFn (term lang : String) (t : List Param) (i : Int) : Except PyErr TRes := do
  let p := posParams t
  if pyStrListLen p < 3 then return (.many [])
  else do
    let a0 ← pyIndex p 0
    let a2 ← pyIndex p 2
    let suf : Etymology :=
      { term := term, lang := lang, reltype := RelType.Suffix_.val,
        related_lang := some (strParam a0), related_term := some (strParam a2),
        definition_num := i }
    let a1 ← pyIndex p 1
    return (.many
      [{ term := term, lang := lang, reltype := RelType.SuffixRoot.val,
         related_lang := some (strParam a0), related_term := some (strParam a1),
         definition_num := i }, suf])

/-- onomatopoeic: the object term equals the subject term; p[0] is
subscripted without a guard. -/
def onomatopoeic (term lang : String) (t : List Param) (i : Int) : Except PyErr TRes := do
  let p := posParams t
  let a0 ← pyIndex p 0
  return (.one { term := term, lang := lang, reltype := RelType.Onomatopoeia.val,
                 related_lang := some (strParam a0), related_term := some term,
                 definition_num := i })

/-- derived_parsed: same record as derived but with no length guard; p[1]
and p[2] raise IndexError when fewer than three positional arguments are
present. -/
def derived_parsed (term lang : String) (t : List Param) (i : Int) : Except PyErr TRes := do
  let p := posParams t
  let a1 ← pyIndex p 1
  let a2 ← pyIndex p 2
  return (.one { term := term, lang := lang, reltype := RelType.Derived.val,
                 related_lang := some (strParam a1),
                 related_term := some (strParam a2), definition_num := i })

/-! ## Relation Taxonomy: dispatch from construct name to interpreter -/

/-- One tag per distinct interpreter reachable from the parse_dict of
get_template_parser; tDefault stands for the default_func entries that
always return an empty list. -/
inductive ParserTag where
  | tInherited | tDerived | tBorrowed | tLearnedBorrowing | tOrthographicBorrowing
  | tSemiLearnedBorrowing | tUnadaptedBorrowing | tPieRoot | tRoot | tAffix
  | tPrefix | tConfix | tSuffix | tCompound | tBlend | tClipping | tBackForm
  | tDoublet | tOnomatopoeic | tCalque | tSemanticLoan | tNamedAfter
  | tPhonoSemanticMatching | tMention | tCognate | tNonCognate | tDerivedParsed
  | tAffixParsed | tFromParsed | tRelatedParsed | tAbbreviation | tInitialism
  | tDefault
deriving DecidableEq, Repr

/-- The parse_dict lookup of get_template_parser, verbatim: every key of
the source dictionary, in order; a name that is no key yields none
(unrecognized construct, silently skipped by parse_template). -/
def get_template_parserTag (template_name : String) : Option ParserTag :=
  match template_name with
  | "inherited" | "inh" => some .tInherited
  | "derived" | "der" => some .tDerived
  | "borrowed" | "bor" => some .tBorrowed
  | "learned borrowing" | "learned_borrowing" | "lbor" => some .tLearnedBorrowing
  | "orthographic borrowing" | "obor" => some .tOrthographicBorrowing
  | "slbor" => some .tSemiLearnedBorrowing
  | "unadapted borrowing" | "ubor" => some .tUnadaptedBorrowing
  | "PIE root" => some .tPieRoot
  | "root" => some .tRoot
  | "affix" | "af" => some .tAffix
  | "prefix" | "pre" => some .tPrefix
  | "confix" => some .tConfix
  | "suffix" | "suf" => some .tSuffix
  | "compound" | "com" => some .tCompound
  | "blend" => some .tBlend
  | "clipping" | "clipping of" => some .tClipping
  | "back_form" | "back-form" | "back-formation" => some .tBackForm
  | "doublet" => some .tDoublet
  | "onomatopoeic" | "onom" => some .tOnomatopoeic
  | "calque" | "cal" => some .tCalque
  | "semantic loan" => some .tSemanticLoan
  | "named-after" => some .tNamedAfter
  | "phono-semantifc matching" | "psm" => some .tPhonoSemanticMatching
  | "mention" | "m" | "langname-mention" | "m+" | "link" | "l" => some .tMention
  | "cognate" | "cog" => some .tCognate
  | "noncognate" | "noncog" | "ncog" => some .tNonCognate
  | "derived-parsed" => some .tDerivedParsed
  | "affix-parsed" => some .tAffixParsed
  | "from-parsed" => some .tFromParsed
  | "related-parsed" => some .tRelatedParsed
  | "abbreviation of" => some .tAbbreviation
  | "initialism of" => some .tInitialism
  | "w" | "wikipedia" | "dercat" | "rel-top" | "rel-bottom" | "small"
  | "section link" | "CE" | "C.E." | "B.C.E." | "gloss" | "glossary"
  | "unk" | "unknown" | "etystub" | "nonlemma" | "rfe" | "IPAchar"
  | "ja-l" | "ja-r" | "ja-kanjitab" | "sense" | "senseid" | "senseid-close"
  | "defdate" | "qualifier" | "nb..." | "rfv-etym" | "inflection of" => some .tDefault
  | _ => none

/-! ## parse_template and the synthetic-group unnesting interpreter

parse_template, unnest_template and the group interpreters are mutually
recursive through nested constructs.  The Nat argument is recursion fuel:
each nesting level of parse_template consumes one unit (Python's own
recursion is bounded by the interpreter stack); callers pass a fuel larger
than the parameter tree depth, so exhaustion is unreachable on real input. -/

/-- Shape of the recursive call handed to the unnesting helpers:
parse_template at one unit less fuel, awaiting (name, term, lang,
params, i). -/
def PtCall : Type :=
  String → String → String → List Param → Int → List Etymology

/-- The inner loop of unnest_template over
p.value.filter_templates(recursive=False): every top-level template node
of the parameter value is interpreted recursively (through pt, the
recursive parse_template call); its records keep their own parent when
parent_tag is truthy and are otherwise re-parented onto the anchor;
parent_index increments once per nested construct. -/
def unnestChildListGo (pt : PtCall) (term lang : String) (parent : Etymology)
    (i : Int) : List Node → Nat → List Etymology × Nat
  | [], idx => ([], idx)
  | .template cname cps :: rest, idx =>
    let child_etys := pt cname term lang cps i
    let these := child_etys.map (fun ce =>
      if pyTruthy ce.parent_tag then ce
      else Etymology.with_parent ce parent (idx : Int))
    let (more, idx2) := unnestChildListGo pt term lang parent i rest (idx + 1)
    (these ++ more, idx2)
  | _ :: rest, idx => unnestChildListGo pt term lang parent i rest idx

/-- The outer loop of unnest_template over template.params, threading
parent_index across parameters. -/
def unnestParamsGo (pt : PtCall) (term lang : String) (parent : Etymology)
    (i : Int) : List Param → Nat → List Etymology × Nat
  | [], idx => ([], idx)
  | p :: rest, idx =>
    let (es, idx2) := unnestChildListGo pt term lang parent i p.value idx
    let (more, idx3) := unnestParamsGo pt term lang parent i rest idx2
    (es ++ more, idx3)

/-- unnest_template from templates.py: one anchor record for the group
itself (object fields None, reltype = the group kind, and group_tag left
at its None default, since nothing in the source ever sets it), followed
by the records of each nested construct. -/
def unnest_templateGo (pt : PtCall) (term lang : String) (ps : List Param)
    (rt : RelType) (i : Int) : Except PyErr TRes :=
  let parent_ety : Etymology :=
    { term := term, lang := lang, reltype := rt.val,
      related_lang := none, related_term := none, definition_num := i }
  .ok (.many (parent_ety :: (unnestParamsGo pt term lang parent_ety i ps 0).1))

/-- Dispatch from a tag to the interpreter function, mirroring the values
of parse_dict; the three group interpreters affix_parsed, from_parsed and
related_parsed are unnest_template at their synthetic kinds. -/
def parser_funcGo (pt : PtCall) (tag : ParserTag) (term lang : String)
    (ps : List Param) (i : Int) : Except PyErr TRes :=
  match tag with
  | .tInherited => inherited term lang ps i
  | .tDerived => derived term lang ps i
  | .tBorrowed => borrowed term lang ps i
  | .tLearnedBorrowing => learned_borrowing term lang ps i
  | .tOrthographicBorrowing => orthographic_borrowing term lang ps i
  | .tSemiLearnedBorrowing => semi_learned_borrowing term lang ps i
  | .tUnadaptedBorrowing => unadapted_borrowing term lang ps i
  | .tPieRoot => pie_root term lang ps i
  | .tRoot => root term lang ps i
  | .tAffix => affix term lang ps i
  | .tPrefix => prefixFn term lang ps i
  | .tConfix => confix term lang ps i
  | .tSuffix => suffixFn term lang ps i
  | .tCompound => compound term lang ps i
  | .tBlend => blend term lang ps i
  | .tClipping => clipping term lang ps i
  | .tBackForm => back_form term lang ps i
  | .tDoublet => doublet term lang ps i
  | .tOnomatopoeic => onomatopoeic term lang ps i
  | .tCalque => calque term lang ps i
  | .tSemanticLoan => semantic_loan term lang ps i
  | .tNamedAfter => named_after term lang ps i
  | .tPhonoSemanticMatching => phono_semantic_matching term lang ps i
  | .tMention => mention term lang ps i
  | .tCognate => cognate term lang ps i
  | .tNonCognate => non_cognate term lang ps i
  | .tDerivedParsed => derived_parsed term lang ps i
  | .tAffixParsed => unnest_templateGo pt term lang ps .GroupAffix i
  | .tFromParsed => unnest_templateGo pt term lang ps .GroupDerived i
  | .tRelatedParsed => unnest_templateGo pt term lang ps .GroupMention i
  | .tAbbreviation => abbreviation term lang ps i
  | .tInitialism => initialism term lang ps i
  | .tDefault => .ok (.many [])

/-- parse_template from templates.py: strips the construct name, looks it
up, returns [] for an unrecognized name, and otherwise runs the
interpreter, degrading any exception to [] (the source logs it) and
wrapping a single returned Etymology into a list.  Recursion through
nested group constructs consumes one unit of fuel per nesting level
(Python recursion is stack-bounded); callers pass fuel exceeding the
parameter-tree depth, so exhaustion is unreachable on real input. -/
def parse_template : Nat → String → String → String → List Param → Int → List Etymology
  | 0, _, _, _, _, _ => []
  | fuel + 1, template_name, term, lang, ps, i =>
    match get_template_parserTag (pyStrip template_name) with
    | none => []
    | some tag =>
      match parser_funcGo (parse_template fuel) tag term lang ps i with
      | .ok r => r.toList
      | .error _ => []

/-- run_parser_func at a given fuel: the interpreter dispatch as invoked from
inside parse_template (fuel + 1). -/
def run_parser_func (fuel : Nat) (tag : ParserTag) (term lang : String)
    (ps : List Param) (i : Int) : Except PyErr TRes :=
  parser_funcGo (parse_template fuel) tag term lang ps i

/-- unnest_template at a given fuel. -/
def unnest_template (fuel : Nat) (term lang : String) (ps : List Param)
    (rt : RelType) (i : Int) : Except PyErr TRes :=
  unnest_templateGo (parse_template fuel) term lang ps rt i

-- Structural size of a parameter tree, used as recursion fuel: the size
-- strictly exceeds the template-nesting depth.
mutual
def nodeSize : Node → Nat
  | .template _ ps => 1 + paramsSize ps
  | .text _ => 1
  | .wikilink _ _ => 1
  | .heading _ => 1

def paramsSize : List Param → Nat
  | [] => 0
  | p :: rest => paramSize p + paramsSize rest

def paramSize : Param → Nat
  | .mk _ _ v => 1 + nodesSize v

def nodesSize : List Node → Nat
  | [] => 0
  | n :: rest => nodeSize n + nodesSize rest
end

/-- parse_template applied to a node as the Section Driver does, with fuel
exceeding the depth of the parameter tree; non-template nodes are never
passed by the driver. -/
def parse_template_node (term lang : String) (n : Node) (i : Int) : List Etymology :=
  match n with
  | .template name ps => parse_template (paramsSize ps + 1) name term lang ps i
  | _ => []

/-! ## Chain Normalizer (main.py) -/

def Node.isTemplate : Node → Bool
  | .template _ _ => true
  | _ => false

/-- The cleaner predicate of clean_wikicode: matches nodes that are not
Text, Wikilink or Template, and blank Text nodes; matched nodes are
removed. -/
def cleanerMatches : Node → Bool
  | .text s => pyStrip s == ""
  | .wikilink _ _ => false
  | .template _ _ => false
  | .heading _ => true

/-- Piece list of Python re.split(",| |", s) under CPython 3.7+ semantics.
The pattern's trailing empty alternative matches zero characters at every
scan position where neither "," nor " " matches, so a match occurs at
every position 0..len(s); after a width-1 match scanning resumes at its
end with nothing pending, after a zero-width match the skipped character
becomes pending text of the next piece.  pending holds the characters
(reversed) between the previous match end and the current scan position.
In particular a match occurs at position 0, so the first returned piece
s[0:0] is always "". -/
def reSplitAux (pending : List Char) : List Char → List String
  | [] => [String.mk pending.reverse, ""]
  | c :: rest =>
    if c = ',' ∨ c = ' ' then String.mk pending.reverse :: reSplitAux [] rest
    else String.mk pending.reverse :: reSplitAux [c] rest

/-- re.split(",| |", s), the token splitter of merge_etyl_templates. -/
def reSplitCommaSpaceOrEmpty (s : String) : List String :=
  reSplitAux [] s.data

/-- The mention-family names checked by merge_etyl_templates:
("m", "mention", "m+", "langname-mention", "l", "link"). -/
def isMentionName (nm : String) : Bool :=
  nm == "m" || nm == "mention" || nm == "m+" ||
  nm == "langname-mention" || nm == "l" || nm == "link"

/-- A template node named exactly "etyl" (the source compares
node.name == "etyl" without stripping). -/
def isEtylTemplate : Node → Bool
  | .template nm _ => nm == "etyl"
  | _ => false

/-- Indices of etyl templates that have a following node:
i < len(wc.nodes) - 1. -/
def etyl_indices (ns : List Node) : List Nat :=
  (ns.enum.filter (fun jn => isEtylTemplate jn.2 && jn.1 + 1 < ns.length)).map (·.1)

/-- The derived-parsed template merge_etyl_templates synthesizes:
positional parameters named "1", "2", "3" holding str(language),
str(related_language), str(val); the source hands these strings to the
collaborator parser, which re-reads plain text as a single Text node. -/
def mkDerivedParsed (language related_language val : String) : Node :=
  .template "derived-parsed"
    [.mk false "1" [.text language], .mk false "2" [.text related_language],
     .mk false "3" [.text val]]

/-- Decision for one etyl occurrence at index i: an optional replacement
template for position i and the indices appended to nodes_to_remove.
Raises when the etyl template (or a mention-family continuation) has no
parameter at subscript 0. -/
def etylAction (ns : List Node) (i : Nat) : Except PyErr (Option Node × List Nat) := do
  match ns.get? i with
  | some (.template _ eps) => do
    let rl0 ← pyIndex eps 0
    let language ← if eps.length == 1 then pure "en"
                   else do
                     let p1 ← pyIndex eps 1
                     pure (strParam p1)
    match ns.get? (i + 1) with
    | some (.text s) =>
      let val := (reSplitCommaSpaceOrEmpty (pyStrip s)).headD ""
      if val != "" then pure (some (mkDerivedParsed language (strParam rl0) val), [])
      else pure (none, [i])
    | some (.wikilink title disp) =>
      let v0 : String := match disp with
        | some d => if d == "" then title else d
        | none => title
      let val := (reSplitCommaSpaceOrEmpty (pyStrip v0)).headD ""
      if val != "" then pure (some (mkDerivedParsed language (strParam rl0) val), [])
      else pure (none, [i])
    | some (.template nm nps) =>
      if isMentionName nm then do
        let mrl ← pyIndex nps 0
        if nps.length > 1 then
          match nps.get? 1 with
          | some p1 => pure (some (mkDerivedParsed language (strParam mrl)
              (renderNodes p1.value)), [i + 1])
          | none => pure (none, [i])
        else pure (none, [i])
      else pure (none, [i])
    | some (.heading _) => pure (none, [i])
    | none => pure (none, [i])
  | _ => pure (none, [])

/-- Removal pass applied after the merge loop: drops the nodes whose
indices were collected in nodes_to_remove (the source removes by node
identity; indices over the original sequence are equivalent because
replacements happen in place and removals are deferred). -/
def removeAtIndicesAux (rem : List Nat) : List Node → Nat → List Node
  | [], _ => []
  | n :: rest, j => (if rem.contains j then [] else [n]) ++ removeAtIndicesAux rem rest (j + 1)

def removeAtIndices (ns : List Node) (rem : List Nat) : List Node :=
  removeAtIndicesAux rem ns 0

/-- merge_etyl_templates from main.py: for each etyl template followed by
a node, synthesize a derived-parsed template in its place when the
continuation yields a nonempty first split token (plain text or link) or
is a mention-family template with a second parameter (which is consumed);
otherwise mark the etyl itself for removal.  All removals happen after
the loop. -/
def merge_etyl_templates (ns : List Node) : Except PyErr (List Node) := do
  let acts ← (etyl_indices ns).mapM (fun i => do
      let a ← etylAction ns i
      pure (i, a))
  let replaced := acts.foldl (fun cur ia =>
      match ia.2.1 with
      | some newT => cur.set ia.1 newT
      | none => cur) ns
  let removed := acts.foldl (fun acc ia => acc ++ ia.2.2) ([] : List Nat)
  pure (removeAtIndices replaced removed)

/-- Indices of Template nodes in the sequence. -/
def template_indices (ns : List Node) : List Nat :=
  (ns.enum.filter (fun jn => jn.2.isTemplate)).map (·.1)

/-- Indices of Text nodes satisfying a connector predicate on their
string value. -/
def text_indices_by (pred : String → Bool) (ns : List Node) : List Nat :=
  (ns.enum.filter (fun jn =>
    match jn.2 with
    | .text s => pred s
    | _ => false)).map (·.1)

/-- The chain-building loop of combine_template_chains: a template index i
joins the current combo when i+1 is a connector index, or when i-2 is in
the combo and the previous template was immediately followed by a
connector (combine); when the current template is not followed by a
connector the combo is flushed, kept only if longer than 1.  Python's
i-2 is negative for i < 2 and never matches, hence the explicit guard. -/
def index_combos_loop (cIdx : List Nat) :
    List Nat → List (List Nat) → List Nat → Bool → List (List Nat)
  | [], combos, combo, _ => if combo.length > 1 then combos ++ [combo] else combos
  | i :: rest, combos, combo, combine =>
    let combo2 := if cIdx.contains (i + 1) || (decide (2 ≤ i) && combo.contains (i - 2) && combine)
                  then combo ++ [i] else combo
    let combine2 := cIdx.contains (i + 1)
    if combine2 then index_combos_loop cIdx rest combos combo2 combine2
    else if combo2.length > 1 then index_combos_loop cIdx rest (combos ++ [combo2]) [] false
    else index_combos_loop cIdx rest combos [] false

def index_combos (tIdx cIdx : List Nat) : List (List Nat) :=
  index_combos_loop cIdx tIdx [] [] false

/-- The replacement template of combine_template_chains: positional
parameters named "1", "2", ... each holding one of the consumed template
nodes, in original order. -/
def mkChainTemplate (name : String) (children : List Node) : Node :=
  .template name (children.enum.map (fun jc => Param.mk false (Nat.repr (jc.1 + 1)) [jc.2]))

/-- Rebuilding pass of combine_template_chains: the new template is
inserted immediately before the first consumed node of its combo and all
consumed nodes are removed; connector text nodes are not consumed and
remain in place. -/
def applyCombosAux (orig : List Node) (name : String) (combos : List (List Nat)) :
    List Node → Nat → List Node
  | [], _ => []
  | n :: rest, j =>
    (match combos.find? (fun c => c.contains j) with
     | none => [n]
     | some c =>
       if c.head? == some j then
         [mkChainTemplate name (c.filterMap (fun k => orig.get? k))]
       else []) ++ applyCombosAux orig name combos rest (j + 1)

/-- combine_template_chains from main.py over explicit index sets. -/
def combine_template_chains (ns : List Node) (new_template_name : String)
    (tIdx cIdx : List Nat) : List Node :=
  applyCombosAux ns new_template_name (index_combos tIdx cIdx) ns 0

/-- Connector predicate of get_plus_combos: Text whose stripped value is
"+". -/
def isPlusText (s : String) : Bool := pyStrip s == "+"

/-- Connector predicate of get_comma_combos: Text whose stripped value is
",". -/
def isCommaText (s : String) : Bool := pyStrip s == ","

/-- re.sub("[^a-z]+", "", str(x).lower()): the lowercased string with
every character outside a-z removed. -/
def lettersOnly (s : String) : String :=
  String.mk ((pyLower s).data.filter (fun c => decide ('a' ≤ c) && decide (c ≤ 'z')))

/-- Connector predicate of get_from_chains: stripped value "<", or the
letters-only lowercasing equal to "from". -/
def is_inheritance_str (s : String) : Bool :=
  pyStrip s == "<" || lettersOnly s == "from"

def get_plus_combos (ns : List Node) : List Node :=
  combine_template_chains ns "affix-parsed" (template_indices ns)
    (text_indices_by isPlusText ns)

def get_comma_combos (ns : List Node) : List Node :=
  combine_template_chains ns "related-parsed" (template_indices ns)
    (text_indices_by isCommaText ns)

def get_from_chains (ns : List Node) : List Node :=
  combine_template_chains ns "from-parsed" (template_indices ns)
    (text_indices_by is_inheritance_str ns)

-- remove_links from main.py: wc.filter_wikilinks() is recursive, so links
-- are replaced by their display text everywhere, including inside template
-- parameters; a link with no display text (link.text is None) is replaced
-- by nothing, since parse_anything(None) is an empty node sequence.
mutual
def remove_links_node : Node → List Node
  | .template name ps => [.template name (remove_links_params ps)]
  | .text s => [.text s]
  | .wikilink _ d => (match d with | some x => [Node.text x] | none => [])
  | .heading t => [.heading t]

def remove_links_params : List Param → List Param
  | [] => []
  | p :: rest => remove_links_param p :: remove_links_params rest

def remove_links_param : Param → Param
  | .mk sk n v => .mk sk n (remove_links_nodes v)

def remove_links_nodes : List Node → List Node
  | [] => []
  | n :: rest => remove_links_node n ++ remove_links_nodes rest
end

/-- clean_wikicode from main.py: strip noise nodes, merge etyl patterns,
run the three connector-chain merges, then strip hyperlinks. -/
def clean_wikicode (ns : List Node) : Except PyErr (List Node) := do
  let ns1 := ns.filter (fun n => !cleanerMatches n)
  let ns2 ← merge_etyl_templates ns1
  let ns3 := get_plus_combos ns2
  let ns4 := get_comma_combos ns3
  let ns5 := get_from_chains ns4
  pure (remove_links_nodes ns5)

/-! ## Section Driver (parse_wikitext, main.py) -/

/-- Word character for the regex word boundary: [A-Za-z0-9_]. -/
def isWordChar (c : Char) : Bool := c.isAlphanum || c == '_'

/-- Digit-run characters to the integer they denote. -/
def digitsToNat (run : List Char) : Nat :=
  run.foldl (fun a c => a * 10 + (c.toNat - 48)) 0

/-- Scanner for re.findall(r"\b\d+\b", s): runRev accumulates the digits
of the current maximal run (reversed); leftOk records whether the
character before the run (when any) was not a word character.  A run
matches when both its left neighbour and its right neighbour (when
present) are not word characters; a run bordered by a letter, digit or
underscore has no word boundary there and does not match. -/
def intTokensAux : List Char → Bool → List Char → List Nat
  | runRev, leftOk, [] =>
    if runRev ≠ [] ∧ leftOk then [digitsToNat runRev.reverse] else []
  | runRev, leftOk, c :: rest =>
    if c.isDigit then intTokensAux (c :: runRev) leftOk rest
    else if runRev ≠ [] ∧ leftOk ∧ !isWordChar c then
      digitsToNat runRev.reverse :: intTokensAux [] (!isWordChar c) rest
    else intTokensAux [] (!isWordChar c) rest

def intTokens (s : String) : List Nat := intTokensAux [] true s.data

/-- The definition-index computation of parse_wikitext: when the first
node of the etymology subsection is a heading whose title contains a
digit, the first integer token minus one; otherwise 0.  The subtraction
is over Python ints and can go negative ("Etymology 0"). -/
def etym_idx (nodes : List Node) : Int :=
  match nodes.head? with
  | some (.heading title) =>
    if title.data.any Char.isDigit then
      match intTokens title with
      | [] => 0
      | n :: _ => (n : Int) - 1
    else 0
  | _ => 0

/-- One language section of a page, as delivered by the out-of-scope
markup parser: the section heading title (the language name) and the node
sequences of its etymology subsections. -/
structure LangSection where
  langTitle : String
  etymSections : List (List Node)

/-- The per-template loop of parse_wikitext over a cleaned subsection:
parse_template on every top-level template
(e.ifilter_templates(recursive=False)), keeping only valid records
(parsed_etys.extend of [e for e in parsed if e.is_valid()]). -/
def subsection_records (term lang : String) (i : Int) (cleaned : List Node) :
    List Etymology :=
  (cleaned.filter Node.isTemplate).flatMap
    (fun n => (parse_template_node term lang n i).filter Etymology.is_valid)

/-- Processing of one etymology subsection: definition index from the
heading, clean_wikicode, then the per-template loop. -/
def parse_etym_section (term lang : String) (nodes : List Node) :
    Except PyErr (List Etymology) := do
  let idx := etym_idx nodes
  let cleaned ← clean_wikicode nodes
  pure (subsection_records term lang idx cleaned)

/-- parse_wikitext from main.py over the pre-sectioned page: concatenates
the records of every etymology subsection of every language section and
filters the accumulated sequence for validity once more before returning
it. -/
def parse_wikitext (term : String) (sections : List LangSection) :
    Except PyErr (List Etymology) := do
  let parsed ← sections.foldlM (fun acc sec =>
      sec.etymSections.foldlM (fun acc2 e => do
          let r ← parse_etym_section term sec.langTitle e
          pure (acc2 ++ r)) acc) ([] : List Etymology)
  pure (parsed.filter Etymology.is_valid)

/-! ## Claim theorems -/

/-- Positional parameter holding one plain-text value, the shape the
collaborator parser produces for wikitext such as "cog|fr|foo". -/
def posP (s : String) (n : String) : Param := .mk false n [.text s]

/-- C10: for every pair of records and every integer n, with_parent
returns a record whose parent_tag is the parent's group_tag and whose
parent_position is n, and which agrees with the child on every other
field. -/
theorem c10_with_parent_frame (child parent : Etymology) (n : Int) :
    (Etymology.with_parent child parent n).parent_tag = parent.group_tag ∧
    (Etymology.with_parent child parent n).parent_position = some n ∧
    (Etymology.with_parent child parent n).lang = child.lang ∧
    (Etymology.with_parent child parent n).term = child.term ∧
    (Etymology.with_parent child parent n).reltype = child.reltype ∧
    (Etymology.with_parent child parent n).related_lang = child.related_lang ∧
    (Etymology.with_parent child parent n).related_term = child.related_term ∧
    (Etymology.with_parent child parent n).definition_num = child.definition_num ∧
    (Etymology.with_parent child parent n).position = child.position ∧
    (Etymology.with_parent child parent n).group_tag = child.group_tag := by
  refine ⟨rfl, rfl, rfl, rfl, rfl, rfl, rfl, rfl, rfl, rfl⟩

/-- C8: the suffix interpreter invoked with two positional arguments
raises IndexError instead of returning the empty sequence: its guard
compares 3 against len(str(p)), the length of the string representation
of the parameter list, which is at least 4 for any nonempty p, so only
the zero-argument call returns []; prefix with one argument and
derived-parsed with two arguments have no guard at all and raise. -/
theorem c8_short_arguments_raise :
    suffixFn "winter" "en" [posP "en" "1", posP "er" "2"] 0 = .error .indexError ∧
    suffixFn "winter" "en" [] 0 = .ok (.many []) ∧
    prefixFn "winter" "en" [posP "en" "1"] 0 = .error .indexError ∧
    derived_parsed "winter" "en" [posP "en" "1", posP "fr" "2"] 0 = .error .indexError := by
  refine ⟨rfl, rfl, rfl, rfl⟩

/-- C1: interpreting affix-parsed(affix(X, a, b)) yields the anchor record
(kind group_affix_root, object fields absent) and the two affix children
at positions 0 and 1 with parent_position 0 - but the anchor's group_tag
is none and both children's parent_tag is none: generate_root_tag
(elements.py) is never invoked, so no fresh random group tag exists and
the parent linkage carries no identifier. -/
theorem c1_group_anchor_and_children_without_tag :
    parse_template_node "w" "en"
      (.template "affix-parsed" [.mk false "1"
        [.template "affix" [posP "X" "1", posP "a" "2", posP "b" "3"]]]) 0 =
    [{ term := "w", lang := "en", reltype := "group_affix_root",
       related_lang := none, related_term := none, definition_num := 0,
       position := 0, group_tag := none, parent_tag := none, parent_position := none },
     { term := "w", lang := "en", reltype := "has_affix",
       related_lang := some "X", related_term := some "a", definition_num := 0,
       position := 0, group_tag := none, parent_tag := none, parent_position := some 0 },
     { term := "w", lang := "en", reltype := "has_affix",
       related_lang := some "X", related_term := some "b", definition_num := 0,
       position := 1, group_tag := none, parent_tag := none, parent_position := some 0 }] := by
  rfl

/-- C3: an etyl template followed by the plain text "foo bar" is removed
with no replacement: the split pattern ",| |" ends in an empty
alternative that matches at position 0, so the first token
re.split(",| |", text)[0] is always the empty string and the
make_new_template branch never fires for a Text continuation. -/
theorem c3_etyl_with_text_dropped :
    merge_etyl_templates
      [.template "etyl" [posP "xyz" "1", posP "en" "2"], .text "foo bar"] =
      .ok [.text "foo bar"] ∧
    (reSplitCommaSpaceOrEmpty (pyStrip "foo bar")).headD "" = "" := by
  refine ⟨rfl, rfl⟩

/-- C4 counterexample: root(X, root1, root2) produces exactly one record,
whose object language is root1 (the second positional argument) and whose
object term is root2 - not two records with object language X as the
claim states. -/
theorem c4_root_counterexample :
    parse_template 1 "root" "w" "en"
      [posP "X" "1", posP "root1" "2", posP "root2" "3"] 0 =
    [{ term := "w", lang := "en", reltype := "has_root",
       related_lang := some "root1", related_term := some "root2",
       definition_num := 0, position := 0 }] := by
  rfl

/-- C4 amended: for the root interpreter, positional argument 1 is the
object language and arguments 2..N are the morphemes, one record per
morpheme with position = its 0-based index in that slice; positional
argument 0 is ignored. -/
theorem c4_root_amended (term lang : String) (t : List Param) (i : Int)
    (p0 p1 : Param) (prest : List Param)
    (h : posParams t = p0 :: p1 :: prest) :
    root term lang t i = .ok (.many (prest.enum.map (fun jr =>
      { term := term, lang := lang, reltype := RelType.Root.val,
        related_lang := some (strParam p1), related_term := some (strParam jr.2),
        position := (jr.1 : Int), definition_num := i }))) := by
  unfold root
  rw [h]
  rfl

/-- C4 amended, instantiated: root(X, root1, root2) yields the single
record with object language root1, object term root2, position 0. -/
theorem c4_root_amended_witness :
    root "w" "en" [posP "X" "1", posP "root1" "2", posP "root2" "3"] 0 =
      .ok (.many [{ term := "w", lang := "en", reltype := RelType.Root.val,
                    related_lang := some (strParam (posP "root1" "2")),
                    related_term := some (strParam (posP "root2" "3")),
                    position := 0, definition_num := 0 }]) := by
  exact c4_root_amended "w" "en" _ 0 (posP "X" "1") (posP "root1" "2")
    [posP "root2" "3"] rfl

/-- C9 counterexample: confix(en, a, b, c) produces three records at
positions 0, 1, 2, but the interior record carries the same has_confix
kind as the prefix and suffix records - not a distinct root kind. -/
theorem c9_confix_interior_kind_counterexample :
    confix "w" "en" [posP "en" "1", posP "a" "2", posP "b" "3", posP "c" "4"] 0 =
      .ok (.many
        [{ term := "w", lang := "en", reltype := "has_confix",
           related_lang := some "en", related_term := some "a",
           position := 0, definition_num := 0 },
         { term := "w", lang := "en", reltype := "has_confix",
           related_lang := some "en", related_term := some "b",
           position := 1, definition_num := 0 },
         { term := "w", lang := "en", reltype := "has_confix",
           related_lang := some "en", related_term := some "c",
           position := 2, definition_num := 0 }]) ∧
    ("has_confix" : String) = RelType.Confix.val := by
  refine ⟨rfl, rfl⟩

/-- C9 amended: confix treats the first affix argument as the prefix part
(position 0) and the last as the suffix part (position len(p)-2), with
every interior argument yielding a record at incrementing positions in
between; all records, interior ones included, carry the same has_confix
kind. -/
theorem c9_confix_amended (term lang : String) (t : List Param) (i : Int)
    (p0 p1 plast : Param) (prest : List Param)
    (h : posParams t = p0 :: p1 :: prest)
    (hl : (posParams t).getLast? = some plast) :
    confix term lang t i = .ok (.many (
      { term := term, lang := lang, reltype := RelType.Confix.val,
        related_lang := some (strParam p0), related_term := some (strParam p1),
        position := 0, definition_num := i } ::
      (prest.dropLast.enum.map (fun jr =>
        { term := term, lang := lang, reltype := RelType.Confix.val,
          related_lang := some (strParam p0), related_term := some (strParam jr.2),
          position := (jr.1 : Int) + 1, definition_num := i })) ++
      [{ term := term, lang := lang, reltype := RelType.Confix.val,
         related_lang := some (strParam p0), related_term := some (strParam plast),
         position := (prest.length : Int), definition_num := i }])) := by
  rw [h] at hl
  unfold confix
  rw [h]
  have hlen : ((p0 :: p1 :: prest).length : Int) - 2 = (prest.length : Int) := by
    simp only [List.length_cons, Nat.cast_add, Nat.cast_one]
    omega
  simp only [pyIndex, pyLast, List.get?, hl, hlen, List.drop, Except.bind]
  rfl

/-- C9 amended, instantiated at confix(en, a, b, c). -/
theorem c9_confix_amended_witness :
    confix "w" "en" [posP "en" "1", posP "a" "2", posP "b" "3", posP "c" "4"] 0 =
      .ok (.many (
        { term := "w", lang := "en", reltype := RelType.Confix.val,
          related_lang := some (strParam (posP "en" "1")),
          related_term := some (strParam (posP "a" "2")),
          position := 0, definition_num := 0 } ::
        (([posP "b" "3", posP "c" "4"] : List Param).dropLast.enum.map (fun jr =>
          { term := "w", lang := "en", reltype := RelType.Confix.val,
            related_lang := some (strParam (posP "en" "1")),
            related_term := some (strParam jr.2),
            position := (jr.1 : Int) + 1, definition_num := 0 })) ++
        [{ term := "w", lang := "en", reltype := RelType.Confix.val,
           related_lang := some (strParam (posP "en" "1")),
           related_term := some (strParam (posP "c" "4")),
           position := (([posP "b" "3", posP "c" "4"] : List Param).length : Int),
           definition_num := 0 }])) := by
  exact c9_confix_amended "w" "en" _ 0 (posP "en" "1") (posP "a" "2") (posP "c" "4")
    [posP "b" "3", posP "c" "4"] rfl rfl

/-- C2: every record in a sequence returned by the section driver has an
object term that is neither "" nor "-": the driver filters the
accumulated records through is_valid before returning them. -/
theorem c2_emitted_records_are_valid (term : String) (sections : List LangSection)
    (l : List Etymology) (h : parse_wikitext term sections = .ok l) :
    ∀ e ∈ l, e.is_valid = true := by
  unfold parse_wikitext at h
  cases hf : (sections.foldlM (fun acc sec =>
      sec.etymSections.foldlM (fun acc2 e => do
          let r ← parse_etym_section term sec.langTitle e
          pure (acc2 ++ r)) acc) ([] : List Etymology)) with
  | error err =>
    rw [hf] at h
    simp [Except.bind] at h
  | ok parsed =>
    rw [hf] at h
    have h2 : Except.ok (ε := PyErr) (parsed.filter Etymology.is_valid) = Except.ok l := h
    injection h2 with h3
    subst h3
    intro e he
    exact (List.mem_filter.mp he).2

/-- C2, instantiated: the record extracted from a page whose etymology
subsection holds a cognate construct and a mention construct with the
placeholder object term "-" is valid (the placeholder record is dropped
before return). -/
theorem c2_emitted_records_are_valid_witness :
    Etymology.is_valid { term := "w", lang := "English", reltype := "cognate_of",
                         related_lang := some "fr", related_term := some "foo",
                         definition_num := 0 } = true := by
  exact c2_emitted_records_are_valid "w"
    [{ langTitle := "English",
       etymSections := [[.heading "Etymology 1",
         .template "cog" [posP "fr" "1", posP "foo" "2"],
         .template "m" [posP "fr" "1", posP "-" "2"]]] }]
    [{ term := "w", lang := "English", reltype := "cognate_of",
       related_lang := some "fr", related_term := some "foo",
       definition_num := 0 }]
    (by rfl)
    { term := "w", lang := "English", reltype := "cognate_of",
      related_lang := some "fr", related_term := some "foo", definition_num := 0 }
    (by simp)

/-- Unfolding equation of parse_template at successor fuel. -/
theorem parse_template_succ (fuel : Nat) (name term lang : String)
    (ps : List Param) (i : Int) :
    parse_template (fuel + 1) name term lang ps i =
      (match get_template_parserTag (pyStrip name) with
       | none => []
       | some tag =>
         match run_parser_func fuel tag term lang ps i with
         | .ok r => r.toList
         | .error _ => []) := rfl

/-- C7: when the dispatched interpreter raises, parse_template catches the
exception at its boundary and returns the empty sequence (the source also
logs the construct with its context, a side effect outside this model),
and the per-template loop over a subsection containing the failing
construct yields exactly the records of its sibling constructs. -/
theorem c7_interpreter_exception_contained (name term lang : String)
    (ps : List Param) (i : Int) (tag : ParserTag) (err : PyErr)
    (hdisp : get_template_parserTag (pyStrip name) = some tag)
    (herr : run_parser_func (paramsSize ps) tag term lang ps i = .error err)
    (pre post : List Node) :
    parse_template_node term lang (.template name ps) i = [] ∧
    subsection_records term lang i (pre ++ .template name ps :: post) =
      subsection_records term lang i pre ++ subsection_records term lang i post := by
  have h1 : parse_template_node term lang (.template name ps) i = [] := by
    show parse_template (paramsSize ps + 1) name term lang ps i = []
    rw [parse_template_succ, hdisp]
    simp only [herr]
  refine ⟨h1, ?_⟩
  unfold subsection_records
  rw [List.filter_append, List.flatMap_append]
  have hkeep : Node.isTemplate (.template name ps) = true := rfl
  simp only [List.filter_cons, hkeep, if_pos, List.flatMap_cons, h1,
    List.filter_nil, List.nil_append]

/-- C7, instantiated: a derived-parsed construct with only two positional
arguments raises IndexError inside its interpreter, parse_template
returns [] for it, and the records of the surrounding cognate constructs
are unaffected. -/
theorem c7_interpreter_exception_contained_witness :
    parse_template_node "w" "en"
      (.template "derived-parsed" [posP "en" "1", posP "fr" "2"]) 0 = [] ∧
    subsection_records "w" "en" 0
      ([.template "cog" [posP "fr" "1", posP "foo" "2"]] ++
        .template "derived-parsed" [posP "en" "1", posP "fr" "2"] ::
        [.template "cog" [posP "de" "1", posP "bar" "2"]]) =
      subsection_records "w" "en" 0 [.template "cog" [posP "fr" "1", posP "foo" "2"]] ++
      subsection_records "w" "en" 0 [.template "cog" [posP "de" "1", posP "bar" "2"]] := by
  exact c7_interpreter_exception_contained "derived-parsed" "w" "en"
    [posP "en" "1", posP "fr" "2"] 0 .tDerivedParsed .indexError rfl rfl
    [.template "cog" [posP "fr" "1", posP "foo" "2"]]
    [.template "cog" [posP "de" "1", posP "bar" "2"]]

/-- C5 counterexample: in the sequence [A, "+", "x", B, "+"] the two
constructs A (index 0) and B (index 3) are separated by a connector and
an unrelated text node, not by exactly one connector, yet the merger
combines them into one affix-parsed group, because each of them is
immediately followed by a "+" text: the loop extends the current chain
whenever the construct is followed by a connector, with no adjacency
requirement between consecutive chain members. -/
theorem c5_merge_across_gap_counterexample :
    get_plus_combos
      [.template "a" [], .text "+", .text "x", .template "b" [], .text "+"] =
      [.template "affix-parsed"
         [.mk false "1" [.template "a" []], .mk false "2" [.template "b" []]],
       .text "+", .text "x", .text "+"] ∧
    index_combos [0, 3] [1, 4] = [[0, 3]] := by
  refine ⟨rfl, rfl⟩

/-- Invariant of the chain-building loop: provided the accumulated combos
satisfy the conclusion, the open combo is empty when combine is false and
consists of connector-followed indices when combine is true, every combo
the loop emits has length at least 2 and each member except the last is
immediately followed by a matching connector index. -/
theorem index_combos_loop_spec (cIdx : List Nat) (ti : List Nat)
    (combos : List (List Nat)) (combo : List Nat) (combine : Bool)
    (hcombos : ∀ c ∈ combos, 2 ≤ c.length ∧
      ∀ j ∈ c.dropLast, cIdx.contains (j + 1) = true)
    (hcombo : combine = true → ∀ j ∈ combo, cIdx.contains (j + 1) = true)
    (hfalse : combine = false → combo = []) :
    ∀ c ∈ index_combos_loop cIdx ti combos combo combine,
      2 ≤ c.length ∧ ∀ j ∈ c.dropLast, cIdx.contains (j + 1) = true := by
  induction ti generalizing combos combo combine with
  | nil =>
    intro c hc
    unfold index_combos_loop at hc
    by_cases hlen : combo.length > 1
    · rw [if_pos hlen] at hc
      rcases List.mem_append.mp hc with h | h
      · exact hcombos c h
      · have hceq : c = combo := List.mem_singleton.mp h
        subst hceq
        cases hb : combine with
        | false => rw [hfalse hb] at hlen; simp at hlen
        | true =>
          exact ⟨hlen, fun j hj => hcombo hb j (List.dropLast_subset _ hj)⟩
    · rw [if_neg hlen] at hc
      exact hcombos c hc
  | cons i rest ih =>
    intro c hc
    unfold index_combos_loop at hc
    by_cases h2 : cIdx.contains (i + 1) = true
    · simp only [h2, Bool.true_or, if_true, if_pos] at hc
      refine ih combos (combo ++ [i]) true hcombos ?_ (by simp) c hc
      intro _ j hj
      rcases List.mem_append.mp hj with hj | hj
      · cases hb : combine with
        | false => rw [hfalse hb] at hj; exact absurd hj (List.not_mem_nil j)
        | true => exact hcombo hb j hj
      · rw [List.mem_singleton.mp hj]; exact h2
    · have h2f : cIdx.contains (i + 1) = false := by
        exact Bool.not_eq_true _ ▸ Bool.of_not_eq_true h2
      simp only [h2f, Bool.false_or, if_false] at hc
      set combo2 := if decide (2 ≤ i) && combo.contains (i - 2) && combine
        then combo ++ [i] else combo with hcombo2
      have hcombo2all : ∀ j ∈ combo2.dropLast, cIdx.contains (j + 1) = true := by
        rw [hcombo2]
        by_cases hcond : (decide (2 ≤ i) && combo.contains (i - 2) && combine) = true
        · rw [if_pos hcond]
          have hcomb : combine = true := (Bool.and_eq_true _ _ |>.mp hcond).2
          rw [List.dropLast_concat]
          exact hcombo hcomb
        · rw [if_neg hcond]
          intro j hj
          cases hb : combine with
          | false => rw [hfalse hb] at hj; simp at hj
          | true => exact hcombo hb j (List.dropLast_subset _ hj)
      by_cases h3 : combo2.length > 1
      · rw [if_pos h3] at hc
        refine ih (combos ++ [combo2]) [] false ?_ (by simp) (fun _ => rfl) c hc
        intro d hd
        rcases List.mem_append.mp hd with hd | hd
        · exact hcombos d hd
        · rw [List.mem_singleton.mp hd]
          exact ⟨h3, hcombo2all⟩
      · rw [if_neg h3] at hc
        exact ih combos [] false hcombos (by simp) (fun _ => rfl) c hc

/-- C5 amended: a run of constructs is merged into one synthetic group
exactly when the loop accumulates it: every merged run has length at
least 2, and every construct in the run except the last is immediately
followed by a matching connector token; consecutive run members need not
be separated by exactly one connector node (the counterexample merges
constructs with two nodes between them); runs of length 1 are never
merged. -/
theorem c5_merged_runs_amended (tIdx cIdx : List Nat) (c : List Nat)
    (hc : c ∈ index_combos tIdx cIdx) :
    2 ≤ c.length ∧ ∀ j ∈ c.dropLast, cIdx.contains (j + 1) = true := by
  exact index_combos_loop_spec cIdx tIdx [] [] false (by simp) (by simp)
    (fun _ => rfl) c hc

/-- C5 amended, instantiated on the chain [T0, "+", T2]: the merged run
[0, 2] has length 2 and its non-final member 0 is followed by the
connector at index 1. -/
theorem c5_merged_runs_amended_witness :
    2 ≤ ([0, 2] : List Nat).length ∧ List.contains [1] (0 + 1) = true := by
  have h := c5_merged_runs_amended [0, 2] [1] [0, 2] (by rw [show index_combos [0, 2] [1] = [[0, 2]] from rfl]; simp)
  exact ⟨h.1, h.2 0 (by simp)⟩

/-- Removing an empty index set leaves the sequence unchanged. -/
theorem removeAtIndicesAux_nil (ns : List Node) (j : Nat) :
    removeAtIndicesAux [] ns j = ns := by
  induction ns generalizing j with
  | nil => rfl
  | cons n rest ih => simp [removeAtIndicesAux, ih]

/-- merge_etyl_templates is the identity on sequences with no non-final
etyl template. -/
theorem merge_etyl_templates_no_etyl (ns : List Node)
    (h : etyl_indices ns = []) : merge_etyl_templates ns = .ok ns := by
  unfold merge_etyl_templates
  rw [h]
  show Except.ok (removeAtIndicesAux [] ns 0) = Except.ok ns
  rw [removeAtIndicesAux_nil]

/-- With no connector indices the chain-building loop emits nothing. -/
theorem index_combos_loop_nil_cIdx (ti : List Nat) (combos : List (List Nat)) :
    index_combos_loop [] ti combos [] false = combos := by
  induction ti generalizing combos with
  | nil => rfl
  | cons i rest ih =>
    unfold index_combos_loop
    simp only [List.contains, List.elem_nil, Bool.false_or, Bool.and_false,
      Bool.false_and, if_false, List.length_nil, if_neg]
    exact ih combos

/-- Rebuilding with no combos is the identity. -/
theorem applyCombosAux_nil (orig : List Node) (name : String)
    (l : List Node) (j : Nat) : applyCombosAux orig name [] l j = l := by
  induction l generalizing j with
  | nil => rfl
  | cons n rest ih => simp [applyCombosAux, ih]

/-- combine_template_chains with no matching connector indices is the
identity. -/
theorem combine_template_chains_nil_cIdx (ns : List Node) (name : String)
    (tIdx : List Nat) : combine_template_chains ns name tIdx [] = ns := by
  unfold combine_template_chains index_combos
  rw [index_combos_loop_nil_cIdx]
  exact applyCombosAux_nil ns name ns 0

/-- C6 counterexample: one run of the normalizer on
[A, "+", B, C, "+", D] merges the pairs into two affix-parsed groups but
leaves the consumed connector "+" text nodes in place; the second run
then merges the two groups (each again followed by a leftover "+") into a
new enclosing group, shrinking the sequence from 4 nodes to 3 - the
normalizer is not idempotent on its own output. -/
theorem c6_second_pass_changes_output :
    clean_wikicode [.template "a" [], .text "+", .template "b" [],
                    .template "c" [], .text "+", .template "d" []] =
      .ok [.template "affix-parsed"
             [.mk false "1" [.template "a" []], .mk false "2" [.template "b" []]],
           .text "+",
           .template "affix-parsed"
             [.mk false "1" [.template "c" []], .mk false "2" [.template "d" []]],
           .text "+"] ∧
    clean_wikicode
      [.template "affix-parsed"
         [.mk false "1" [.template "a" []], .mk false "2" [.template "b" []]],
       .text "+",
       .template "affix-parsed"
         [.mk false "1" [.template "c" []], .mk false "2" [.template "d" []]],
       .text "+"] =
      .ok [.template "affix-parsed"
             [.mk false "1"
               [.template "affix-parsed"
                 [.mk false "1" [.template "a" []], .mk false "2" [.template "b" []]]],
              .mk false "2"
               [.template "affix-parsed"
                 [.mk false "1" [.template "c" []], .mk false "2" [.template "d" []]]]],
           .text "+", .text "+"] ∧
    ([.template "affix-parsed"
        [.mk false "1" [.template "a" []], .mk false "2" [.template "b" []]],
      .text "+",
      .template "affix-parsed"
        [.mk false "1" [.template "c" []], .mk false "2" [.template "d" []]],
      .text "+"] : List Node).length = 4 ∧
    ([.template "affix-parsed"
        [.mk false "1"
          [.template "affix-parsed"
            [.mk false "1" [.template "a" []], .mk false "2" [.template "b" []]]],
         .mk false "2"
          [.template "affix-parsed"
            [.mk false "1" [.template "c" []], .mk false "2" [.template "d" []]]]],
      .text "+", .text "+"] : List Node).length = 3 := by
  refine ⟨rfl, rfl, rfl, rfl⟩

/-- C6 amended: a second normalizer run is the identity on a first run's
output provided that output retains no removable node, no matching
connector text node for any of the three connector families, no non-final
etyl template, and no wikilink anywhere (the conditions the counterexample
shows a first run can violate by leaving connector texts behind). -/
theorem c6_idempotent_when_no_connectors_remain (s t : List Node)
    (h0 : clean_wikicode s = .ok t)
    (h1 : ∀ n ∈ t, cleanerMatches n = false)
    (h2 : etyl_indices t = [])
    (h3 : text_indices_by isPlusText t = [])
    (h4 : text_indices_by isCommaText t = [])
    (h5 : text_indices_by is_inheritance_str t = [])
    (h6 : remove_links_nodes t = t) :
    clean_wikicode t = .ok t := by
  have hp : get_plus_combos t = t := by
    unfold get_plus_combos
    rw [h3]
    exact combine_template_chains_nil_cIdx t _ _
  have hc : get_comma_combos t = t := by
    unfold get_comma_combos
    rw [h4]
    exact combine_template_chains_nil_cIdx t _ _
  have hfm : get_from_chains t = t := by
    unfold get_from_chains
    rw [h5]
    exact combine_template_chains_nil_cIdx t _ _
  have hf : t.filter (fun n => !cleanerMatches n) = t :=
    List.filter_eq_self.mpr (fun n hn => by rw [h1 n hn]; rfl)
  have hform : clean_wikicode t =
      (merge_etyl_templates (t.filter (fun n => !cleanerMatches n))).bind
        (fun ns2 => Except.ok (remove_links_nodes (get_from_chains (get_comma_combos
          (get_plus_combos ns2))))) := rfl
  rw [hform, hf, merge_etyl_templates_no_etyl t h2]
  show Except.ok (remove_links_nodes (get_from_chains (get_comma_combos
    (get_plus_combos t)))) = Except.ok t
  rw [hp, hc, hfm, h6]

/-- C6 amended, instantiated: the cleaned form of a subsection holding
one construct and one plain text is a fixed point of the normalizer. -/
theorem c6_idempotent_when_no_connectors_remain_witness :
    clean_wikicode [.template "foo" [], .text "bar"] =
      .ok [.template "foo" [], .text "bar"] := by
  exact c6_idempotent_when_no_connectors_remain
    [.heading "x", .template "foo" [], .text "bar"]
    [.template "foo" [], .text "bar"]
    (by rfl) (by decide) rfl rfl rfl rfl rfl

end EtymDb
